import Mathlib

/-
  Shallow embedding of the feed/like/upload client logic of the
  MADCapstoneProject repository (React Native + Supabase social feed).

  Sources embedded:
  - src/context/AppContext.js        (reducer UPDATE_POST_LIKE, optimistic toggleLike)
  - src/hooks/usePosts.js            (second AppContext: reducer ADD_POSTS / DELETE_POST,
                                      non-optimistic toggleLike, fetchPosts with range
                                      pagination, deletePost, fetchPostWithLikes)
  - src/unnamed/part_003 (HomeScreen) handleLikeChange realtime merge, optimistic
                                      toggleLike with inline setPosts updates
  - src/unnamed/part_002 (CameraScreen) uploadPost

  JavaScript idioms are modelled explicitly:
  - `x || d` on an optional numeric value is `jsOr` (0 and null/undefined are falsy);
  - `a === b?.c` with optional chaining is `jsEqNat` on `Option Nat`
    (undefined === undefined is true, undefined === n is false);
  - a thrown-and-caught error is an explicit error branch of the oracle arguments;
  - each remote SDK call the code issues is recorded in a `List RemoteCall` trace.
-/

namespace MadCap

/-- JS `c || d` for an optional integer: `null`/`undefined` and `0` are falsy. -/
def jsOr (c : Option Int) (d : Int) : Int :=
  match c with
  | none => d
  | some n => if n = 0 then d else n

/-- JS strict equality on possibly-undefined numeric values
(`undefined === undefined` is `true`). -/
def jsEqNat (a b : Option Nat) : Bool :=
  match a, b with
  | none, none => true
  | some x, some y => decide (x = y)
  | _, _ => false

/-- A post row as held in client feed state: database columns plus the
client-computed `likes_count` and `user_has_liked` fields (absent on raw rows). -/
structure Post where
  id : Nat
  user_id : Nat
  created_at : Int
  caption : String
  image_url : String
  likes_count : Option Int
  user_has_liked : Bool
deriving DecidableEq, Repr

/-- A row of the `likes` table as carried by a realtime payload. -/
structure LikeRow where
  post_id : Nat
  user_id : Nat
deriving DecidableEq, Repr

/-- A realtime `postgres_changes` payload on the `likes` table:
`eventType` string plus optional `new` and `old` rows. -/
structure LikePayload where
  eventType : String
  newRow : Option LikeRow
  oldRow : Option LikeRow
deriving DecidableEq, Repr

/-- One remote SDK call issued by the client, with the parameters the code
passes (table filters, range and ordering, storage paths, inserted columns). -/
inductive RemoteCall where
  | authGetUser
  | likesDelete (postId userId : Nat)
  | likesInsert (postId userId : Nat)
  | likesUpsert (postId userId : Nat)
  | likesDeleteByPost (postId : Nat)
  | likesCount (postId : Nat)
  | likesUserLike (postId : Nat) (userId : Option Nat)
  | postsSelectSingle (postId : Nat)
  | postsRange (orderBy : String) (descending : Bool) (fromIdx toIdx : Nat)
  | postsDelete (postId : Nat) (userFilter : Option Nat)
  | postsInsert (userId : Nat) (imageUrl caption mediaType : String)
  | storageUpload (bucket path : String)
  | storageRemove (bucket path : String)
  | getPublicUrl (bucket path : String)
deriving DecidableEq, Repr

/-- Global state of the second AppContext (src/hooks/usePosts.js lines 113-120). -/
structure AppState where
  user : Option Nat
  posts : List Post
  loading : Bool
  loadingMore : Bool
  hasMore : Bool
deriving DecidableEq, Repr

/-- The initial state (src/hooks/usePosts.js lines 114-120). -/
def initialAppState : AppState :=
  { user := none, posts := [], loading := true, loadingMore := false, hasMore := true }

/-- src/hooks/usePosts.js line 338: `const PAGE_SIZE = 10`. -/
def PAGE_SIZE : Nat := 10

/-- The reducer case `UPDATE_POST_LIKE` (src/context/AppContext.js lines 33-47,
identically src/hooks/usePosts.js lines 138-152): on the matching post set
`user_has_liked := liked` and `likes_count` to
`(likes_count || 0) + 1` when liking, `Math.max(0, (likes_count || 1) - 1)`
when unliking. -/
def updatePostLike (postId : Nat) (liked : Bool) (posts : List Post) : List Post :=
  posts.map fun post =>
    if post.id = postId then
      { post with
        user_has_liked := liked,
        likes_count := some (if liked then jsOr post.likes_count 0 + 1
                             else max 0 (jsOr post.likes_count 1 - 1)) }
    else post

/-- The reducer case `ADD_POSTS` (src/hooks/usePosts.js lines 131-136): append the
payload after filtering out posts whose id already occurs in the state. -/
def addPostsAction (statePosts payload : List Post) : List Post :=
  statePosts ++ payload.filter (fun newPost =>
    !(statePosts.any (fun existingPost => existingPost.id == newPost.id)))

/-- Outcome of the optimistic toggleLike of src/context/AppContext.js lines 89-121:
the state right after the optimistic dispatch, the state after the remote call
settles (rolled back if it failed), and the remote calls issued. -/
structure ToggleCtxOut where
  optimistic : List Post
  final : List Post
  calls : List RemoteCall
deriving DecidableEq, Repr

/-- toggleLike of src/context/AppContext.js lines 89-121: guard on a null user,
optimistic `updatePostLike(postId, !currentlyLiked)`, then a remote delete
(unlike) or upsert (like); on a remote error the optimistic update is reverted
with `updatePostLike(postId, currentlyLiked)`. `remoteFails` abstracts whether
the issued remote call returns an error. -/
def toggleLikeCtx (user : Option Nat) (postId : Nat) (currentlyLiked : Bool)
    (remoteFails : Bool) (posts : List Post) : ToggleCtxOut :=
  match user with
  | none => { optimistic := posts, final := posts, calls := [] }
  | some uid =>
    let opt := updatePostLike postId (!currentlyLiked) posts
    let call := if currentlyLiked then RemoteCall.likesDelete postId uid
                else RemoteCall.likesUpsert postId uid
    if remoteFails then
      { optimistic := opt, final := updatePostLike postId currentlyLiked opt, calls := [call] }
    else
      { optimistic := opt, final := opt, calls := [call] }

/-- The inline optimistic update of HomeScreen toggleLike
(src/unnamed/part_003 lines 122-132): set `user_has_liked := !currentlyLiked` and
`likes_count` to `(likes_count || 1) - 1` when unliking, `(likes_count || 0) + 1`
when liking. -/
def optimisticLikeUpdate (postId : Nat) (currentlyLiked : Bool) (posts : List Post) :
    List Post :=
  posts.map fun post =>
    if post.id = postId then
      { post with
        user_has_liked := !currentlyLiked,
        likes_count := some (if currentlyLiked then jsOr post.likes_count 1 - 1
                             else jsOr post.likes_count 0 + 1) }
    else post

/-- The inline revert of HomeScreen toggleLike on a remote error
(src/unnamed/part_003 lines 160-170): set `user_has_liked := currentlyLiked` and
`likes_count` to `(likes_count || 0) + 1` when it was a like being reverted from
an unlike, `(likes_count || 1) - 1` otherwise. -/
def revertLikeUpdate (postId : Nat) (currentlyLiked : Bool) (posts : List Post) :
    List Post :=
  posts.map fun post =>
    if post.id = postId then
      { post with
        user_has_liked := currentlyLiked,
        likes_count := some (if currentlyLiked then jsOr post.likes_count 0 + 1
                             else jsOr post.likes_count 1 - 1) }
    else post

/-- handleLikeChange (src/unnamed/part_003 lines 44-65, identically
src/unnamed/part_004 lines 60-81): merge a realtime likes-table event into the
feed. A post matches when its id strictly-equals `payload.new?.post_id` or
`payload.old?.post_id`. On INSERT the count becomes `(likes_count || 0) + 1` and
`user_has_liked` is set true exactly when `payload.new.user_id === currentUser?.id`;
on DELETE the count becomes `Math.max(0, (likes_count || 0) - 1)` and
`user_has_liked` is set false under the analogous comparison. (In JS, reading
`payload.new.user_id` when `new` is absent would be a runtime TypeError; it is
modelled as the absent value, a case excluded by well-formed realtime events.) -/
def handleLikeChange (currentUser : Option Nat) (payload : LikePayload)
    (posts : List Post) : List Post :=
  posts.map fun post =>
    if jsEqNat (some post.id) (payload.newRow.map LikeRow.post_id)
        || jsEqNat (some post.id) (payload.oldRow.map LikeRow.post_id) then
      if payload.eventType = "INSERT" then
        { post with
          likes_count := some (jsOr post.likes_count 0 + 1),
          user_has_liked :=
            if jsEqNat (payload.newRow.map LikeRow.user_id) currentUser then true
            else post.user_has_liked }
      else if payload.eventType = "DELETE" then
        { post with
          likes_count := some (max 0 (jsOr post.likes_count 0 - 1)),
          user_has_liked :=
            if jsEqNat (payload.oldRow.map LikeRow.user_id) currentUser then false
            else post.user_has_liked }
      else post
    else post

/-- The per-post enrichment of fetchPosts (src/hooks/usePosts.js lines 354-372):
spread the fetched row with `likes_count := count || 0` (`count` is the exact
count or null on error) and `user_has_liked := !!userLike`. -/
def enrichPost (countO : Nat → Option Nat) (likeO : Nat → Bool) (p : Post) : Post :=
  { p with
    likes_count := some (((countO p.id).getD 0 : Nat) : Int),
    user_has_liked := likeO p.id }

/-- The two likes queries issued for each post of a fetched page
(src/hooks/usePosts.js lines 354-365). -/
def likesTrace (userO : Option Nat) (page : List Post) : List RemoteCall :=
  page.flatMap fun p => [RemoteCall.likesCount p.id, RemoteCall.likesUserLike p.id userO]

/-- fetchPosts (src/hooks/usePosts.js lines 324-390). Guards: return immediately
when `state.loading && !isInitial` or `!isInitial && !state.hasMore`. Otherwise
issue `auth.getUser`, then the posts query ordered by `created_at` descending
with `range(from, from + PAGE_SIZE - 1)` where `from` is 0 on an initial fetch
and `state.posts.length` otherwise. `remote` is the table in the order the
query returns it (descending `created_at`), so the range returns its slice;
`queryErr` abstracts a query error, which is caught and only logged, the
`finally` block resetting the loading flags. On success the page is enriched
per post, then dispatched with SET_POSTS (initial; hasMore := true then
overridden) or ADD_POSTS, followed by SET_HAS_MORE (page length = PAGE_SIZE). -/
def fetchPostsStep (remote : List Post) (countO : Nat → Option Nat)
    (likeO : Nat → Bool) (userO : Option Nat) (queryErr : Option String)
    (isInitial : Bool) (st : AppState) : AppState × List RemoteCall :=
  if st.loading && !isInitial then (st, [])
  else if !isInitial && !st.hasMore then (st, [])
  else
    let fromIdx := if isInitial then 0 else st.posts.length
    let toIdx := fromIdx + PAGE_SIZE - 1
    match queryErr with
    | some _ =>
      ({ st with loading := false, loadingMore := false },
       [RemoteCall.authGetUser, RemoteCall.postsRange "created_at" true fromIdx toIdx])
    | none =>
      let page := (remote.drop fromIdx).take PAGE_SIZE
      let enriched := page.map (enrichPost countO likeO)
      let newPosts := if isInitial then enriched else addPostsAction st.posts enriched
      ({ st with
          posts := newPosts,
          hasMore := decide (page.length = PAGE_SIZE),
          loading := false,
          loadingMore := false },
       RemoteCall.authGetUser ::
         RemoteCall.postsRange "created_at" true fromIdx toIdx :: likesTrace userO page)

/-- A sequence of successful fetches: fold `fetchPostsStep` (no query error)
over a list of `isInitial` flags. -/
def fetchSeq (remote : List Post) (countO : Nat → Option Nat) (likeO : Nat → Bool)
    (userO : Option Nat) (flags : List Bool) (st : AppState) : AppState :=
  flags.foldl (fun s b => (fetchPostsStep remote countO likeO userO none b s).1) st

/-- The result shape returned by toggleLike / deletePost of
src/hooks/usePosts.js: an object with `success`, an optional `error` message
and (for toggleLike success) a `liked` flag. -/
structure OpResult where
  success : Bool
  error : Option String
  liked : Option Bool
deriving DecidableEq, Repr

/-- toggleLike of src/hooks/usePosts.js lines 230-263 (the non-optimistic
variant): null-user guard returning a failure object, then a remote likes
delete (unlike) or insert (like); on success the state is updated via
`updatePostLike` and a success object returned; an error is caught and
returned as a failure object. `deleteErr` and `insertErr` abstract the error
of the remote call that the branch issues. -/
def toggleLikeRun (user : Option Nat) (postId : Nat) (currentlyLiked : Bool)
    (deleteErr insertErr : Option String) (posts : List Post) :
    OpResult × List Post × List RemoteCall :=
  match user with
  | none =>
    ({ success := false, error := some "User not logged in", liked := none }, posts, [])
  | some uid =>
    if currentlyLiked then
      match deleteErr with
      | some e =>
        ({ success := false, error := some e, liked := none }, posts,
         [RemoteCall.likesDelete postId uid])
      | none =>
        ({ success := true, error := none, liked := some false },
         updatePostLike postId false posts, [RemoteCall.likesDelete postId uid])
    else
      match insertErr with
      | some e =>
        ({ success := false, error := some e, liked := none }, posts,
         [RemoteCall.likesInsert postId uid])
      | none =>
        ({ success := true, error := none, liked := some true },
         updatePostLike postId true posts, [RemoteCall.likesInsert postId uid])

/-- fetchPostWithLikes of src/hooks/usePosts.js lines 265-322: null-user guard
returning null; a single-row posts select (an error is caught, logged and
yields null; a null row yields null), then a likes count query (an error is
only logged, the count treated as null) and a user-like query, returning the
row enriched with `likes_count := count || 0` and `user_has_liked := !!userLike`. -/
def fetchPostWithLikesRun (user : Option Nat) (postId : Nat)
    (postRes : Except String (Option Post)) (countO : Option Nat)
    (userLikeO : Bool) : Option Post × List RemoteCall :=
  match user with
  | none => (none, [])
  | some uid =>
    match postRes with
    | Except.error _ => (none, [RemoteCall.postsSelectSingle postId])
    | Except.ok none => (none, [RemoteCall.postsSelectSingle postId])
    | Except.ok (some postData) =>
      (some { postData with
                likes_count := some ((countO.getD 0 : Nat) : Int),
                user_has_liked := userLikeO },
       [RemoteCall.postsSelectSingle postId, RemoteCall.likesCount postId,
        RemoteCall.likesUserLike postId (some uid)])

/-- The storage removal deletePost issues when an image URL is present
(src/hooks/usePosts.js lines 396-410): the path after the first `/posts/`
segment, query string stripped, removed from the `posts` bucket; no call when
the URL is absent or has no `/posts/` segment. -/
def deleteStorageTrace (imageUrl : Option String) : List RemoteCall :=
  match imageUrl with
  | none => []
  | some url =>
    let urlParts := url.splitOn "/posts/"
    if urlParts.length > 1 then
      [RemoteCall.storageRemove "posts" ((((urlParts.getD 1 "").splitOn "?").headD ""))]
    else []

/-- deletePost of src/hooks/usePosts.js lines 392-435: null-user guard
returning a failure object; if an image URL is present, the path after
`/posts/` (query string stripped) is removed from the `posts` storage bucket,
a storage error being only logged; then a generic likes delete by post id
(result ignored), then the posts-row delete filtered by `id = postId` AND
`user_id = state.user.id` (the code comment reads: ensure user owns the post).
A delete error is caught and returned as a failure object with no state
change; on success the post is removed from local state (DELETE_POST). -/
def deletePostRun (user : Option Nat) (postId : Nat) (imageUrl : Option String)
    (storageErr postsDelErr : Option String) (posts : List Post) :
    OpResult × List Post × List RemoteCall :=
  match user with
  | none =>
    ({ success := false, error := some "User not authenticated", liked := none },
     posts, [])
  | some uid =>
    let trace := deleteStorageTrace imageUrl ++
      [RemoteCall.likesDeleteByPost postId, RemoteCall.postsDelete postId (some uid)]
    match postsDelErr with
    | some e => ({ success := false, error := some e, liked := none }, posts, trace)
    | none =>
      ({ success := true, error := none, liked := none },
       posts.filter (fun post => post.id ≠ postId), trace)

/-- JS `String.prototype.trim`: strip leading and trailing whitespace
(structurally, so that it evaluates inside the kernel). -/
def jsTrim (s : String) : String :=
  ⟨((s.data.dropWhile Char.isWhitespace).reverse.dropWhile Char.isWhitespace).reverse⟩

/-- Observable outcome of uploadPost: the missing-input alert, the failure
alert (caught error), or the success alert. -/
inductive UploadResult where
  | missingInput
  | failed (msg : String)
  | ok
deriving DecidableEq, Repr

/-- uploadPost of src/unnamed/part_002 lines 77-139 (CameraScreen): if the
photo is absent or the trimmed caption is empty, alert and return with no
remote call. Otherwise get the authenticated user (a null user throws, caught
below), build `fileName = userId/now.jpg`, upload it to the `posts` storage
bucket (an upload error throws), obtain the public URL of that file name, and
insert a posts row with that URL, the entered caption and media_type photo
(an insert error throws). Every thrown error is caught by the surrounding
catch and surfaced as a failure alert. -/
def uploadPostRun (photo : Option String) (caption : String) (user : Option Nat)
    (now : Nat) (uploadErr : Option String) (pubUrl : String → String)
    (insertErr : Option String) : UploadResult × List RemoteCall :=
  if photo.isNone || jsTrim caption = "" then (UploadResult.missingInput, [])
  else
    match user with
    | none => (UploadResult.failed "No user found", [RemoteCall.authGetUser])
    | some uid =>
      let fileName := toString uid ++ "/" ++ toString now ++ ".jpg"
      match uploadErr with
      | some e =>
        (UploadResult.failed e,
         [RemoteCall.authGetUser, RemoteCall.storageUpload "posts" fileName])
      | none =>
        let publicUrl := pubUrl fileName
        let trace :=
          [RemoteCall.authGetUser, RemoteCall.storageUpload "posts" fileName,
           RemoteCall.getPublicUrl "posts" fileName,
           RemoteCall.postsInsert uid publicUrl caption "photo"]
        match insertErr with
        | some e => (UploadResult.failed e, trace)
        | none => (UploadResult.ok, trace)

/-- Non-negativity of every present `likes_count` in a feed. -/
def nonnegLikes (posts : List Post) : Prop :=
  ∀ p ∈ posts, ∀ n : Int, p.likes_count = some n → 0 ≤ n

/-- The JS default `c || d` is non-negative when the stored value and the
default are. -/
theorem jsOr_nonneg {c : Option Int} {d : Int}
    (hc : ∀ n : Int, c = some n → 0 ≤ n) (hd : 0 ≤ d) : 0 ≤ jsOr c d := by
  cases c with
  | none => simpa [jsOr] using hd
  | some n =>
    simp only [jsOr]
    split
    · exact hd
    · exact hc n rfl

/-- Claim C9: with no logged-in user, both toggleLike variants issue no remote
call, leave the posts unchanged, and return early — the context version
returning undefined (output equal to the input state), the hooks version
returning a not-logged-in failure object. -/
theorem c9_no_user_noop (postId : Nat) (currentlyLiked remoteFails : Bool)
    (posts : List Post) (deleteErr insertErr : Option String) :
    toggleLikeCtx none postId currentlyLiked remoteFails posts =
      { optimistic := posts, final := posts, calls := [] } ∧
    toggleLikeRun none postId currentlyLiked deleteErr insertErr posts =
      ({ success := false, error := some "User not logged in", liked := none },
       posts, []) :=
  ⟨rfl, rfl⟩

/-- Claim C8: the ADD_POSTS reducer case preserves pairwise-distinct post ids:
if the state posts and the payload each have pairwise-distinct ids, so does
the appended result, because payload posts whose id already occurs are
filtered out. -/
theorem c8_add_posts_nodup (statePosts payload : List Post)
    (h1 : (statePosts.map Post.id).Nodup) (h2 : (payload.map Post.id).Nodup) :
    ((addPostsAction statePosts payload).map Post.id).Nodup := by
  unfold addPostsAction
  rw [List.map_append, List.nodup_append]
  refine ⟨h1, h2.sublist (List.Sublist.map _ (List.filter_sublist _)), ?_⟩
  intro a ha hb
  rcases List.mem_map.mp ha with ⟨e, he, rfl⟩
  rcases List.mem_map.mp hb with ⟨p, hp, hpe⟩
  rcases List.mem_filter.mp hp with ⟨_, hpred⟩
  have hany : statePosts.any (fun ep => ep.id == p.id) = true :=
    List.any_eq_true.mpr ⟨e, he, by simpa using hpe.symm⟩
  simp [hany] at hpred

/-- Witness for C8 at concrete lists. -/
theorem c8_add_posts_nodup_witness :
    (([⟨1, 0, 5, "a", "x", none, false⟩] : List Post).map Post.id).Nodup ∧
    (([⟨1, 0, 5, "a", "x", none, false⟩, ⟨2, 0, 4, "b", "y", none, false⟩] :
        List Post).map Post.id).Nodup ∧
    ((addPostsAction [⟨1, 0, 5, "a", "x", none, false⟩]
        [⟨1, 0, 5, "a", "x", none, false⟩, ⟨2, 0, 4, "b", "y", none, false⟩]).map
          Post.id).Nodup :=
  ⟨by decide, by decide,
   c8_add_posts_nodup _ _ (by decide) (by decide)⟩

/-- The per-post effect of a realtime likes INSERT as the claim states it: the
count of the matching post is incremented (a missing count counting as 0) and
its `user_has_liked` is set true exactly when the event user is the current
user; any other post is unchanged. -/
def specInsertMerge (uid : Nat) (row : LikeRow) (post : Post) : Post :=
  if post.id = row.post_id then
    { post with
      likes_count := some (jsOr post.likes_count 0 + 1),
      user_has_liked := if row.user_id = uid then true else post.user_has_liked }
  else post

/-- The per-post effect of a realtime likes DELETE as the claim states it: the
count of the matching post is decremented but clamped at 0 and its
`user_has_liked` is set false exactly when the user of the deleted row is the
current user; any
other post is unchanged. -/
def specDeleteMerge (uid : Nat) (row : LikeRow) (post : Post) : Post :=
  if post.id = row.post_id then
    { post with
      likes_count := some (max 0 (jsOr post.likes_count 0 - 1)),
      user_has_liked := if row.user_id = uid then false else post.user_has_liked }
  else post

/-- Claim C2: for a well-formed realtime INSERT event (new row present, old row
absent) the feed merge equals the claimed per-post update — increment exactly
the count of the matching post, set its `user_has_liked` true exactly when the
event user is the current user, leave every other post unchanged — and
dually for a well-formed DELETE event with the count clamped at 0. -/
theorem c2_realtime_merge (uid : Nat) (row : LikeRow) (posts : List Post) :
    handleLikeChange (some uid) ⟨"INSERT", some row, none⟩ posts =
      posts.map (specInsertMerge uid row) ∧
    handleLikeChange (some uid) ⟨"DELETE", none, some row⟩ posts =
      posts.map (specDeleteMerge uid row) := by
  constructor
  · unfold handleLikeChange specInsertMerge
    refine List.map_congr_left fun p _ => ?_
    by_cases h : p.id = row.post_id
    · by_cases hu : row.user_id = uid <;> simp [jsEqNat, h, hu]
    · simp [jsEqNat, h]
  · unfold handleLikeChange specDeleteMerge
    refine List.map_congr_left fun p _ => ?_
    by_cases h : p.id = row.post_id
    · by_cases hu : row.user_id = uid <;> simp [jsEqNat, h, hu]
    · simp [jsEqNat, h]

/-- The JS default `c || 1` is at least 1 when every present value of `c` is
non-negative (0 is falsy, so it falls back to the default). -/
theorem jsOr_one_ge {c : Option Int} (hc : ∀ n : Int, c = some n → 0 ≤ n) :
    1 ≤ jsOr c 1 := by
  cases c with
  | none => simp [jsOr]
  | some n =>
    have hn := hc n rfl
    simp only [jsOr]
    split
    · exact le_refl 1
    · omega

/-- Claim C6: a non-initial fetchPosts call made while hasMore is false returns
immediately with no remote call and no state change; and a fetch that passes
the guards with a successful query sets hasMore exactly when the returned page
has exactly PAGE_SIZE (10) rows. -/
theorem c6_has_more_guard :
    (∀ (remote : List Post) (countO : Nat → Option Nat) (likeO : Nat → Bool)
       (userO : Option Nat) (err : Option String) (st : AppState),
       st.hasMore = false →
       fetchPostsStep remote countO likeO userO err false st = (st, [])) ∧
    (∀ (remote : List Post) (countO : Nat → Option Nat) (likeO : Nat → Bool)
       (userO : Option Nat) (isInitial : Bool) (st : AppState),
       isInitial = true ∨ (st.loading = false ∧ st.hasMore = true) →
       ((fetchPostsStep remote countO likeO userO none isInitial st).1).hasMore =
         decide (((remote.drop (if isInitial then 0 else st.posts.length)).take
             PAGE_SIZE).length = PAGE_SIZE)) := by
  constructor
  · intro remote countO likeO userO err st h
    unfold fetchPostsStep
    cases hl : st.loading <;> simp [h, hl]
  · intro remote countO likeO userO b st h
    rcases h with h | ⟨hl, hm⟩
    · subst h
      unfold fetchPostsStep
      simp
    · unfold fetchPostsStep
      cases b <;> simp [hl, hm]

/-- Witness for C6 at a concrete state and remote list. -/
theorem c6_has_more_guard_witness :
    ((⟨none, [], false, false, false⟩ : AppState).hasMore = false ∧
     fetchPostsStep [] (fun _ => none) (fun _ => false) none none false
       ⟨none, [], false, false, false⟩ = (⟨none, [], false, false, false⟩, [])) ∧
    (((⟨none, [], false, false, true⟩ : AppState).loading = false ∧
      (⟨none, [], false, false, true⟩ : AppState).hasMore = true) ∧
     ((fetchPostsStep [] (fun _ => none) (fun _ => false) none none false
         ⟨none, [], false, false, true⟩).1).hasMore =
       decide (((([] : List Post).drop 0).take PAGE_SIZE).length = PAGE_SIZE)) :=
  ⟨⟨rfl, c6_has_more_guard.1 [] (fun _ => none) (fun _ => false) none none
      ⟨none, [], false, false, false⟩ rfl⟩,
   ⟨⟨rfl, rfl⟩, c6_has_more_guard.2 [] (fun _ => none) (fun _ => false) none false
      ⟨none, [], false, false, true⟩ (Or.inr ⟨rfl, rfl⟩)⟩⟩

/-- Claim C10: every like-related state transition — the UPDATE_POST_LIKE
reducer case, the HomeScreen optimistic like/unlike update and its revert, and
the realtime likes merge — maps a feed whose present likes counts are all
non-negative to a feed whose likes counts are all non-negative. -/
theorem c10_likes_nonneg (posts : List Post) (h : nonnegLikes posts) :
    (∀ postId liked, nonnegLikes (updatePostLike postId liked posts)) ∧
    (∀ postId currentlyLiked,
       nonnegLikes (optimisticLikeUpdate postId currentlyLiked posts)) ∧
    (∀ postId currentlyLiked,
       nonnegLikes (revertLikeUpdate postId currentlyLiked posts)) ∧
    (∀ currentUser payload, nonnegLikes (handleLikeChange currentUser payload posts)) := by
  refine ⟨?_, ?_, ?_, ?_⟩
  · intro postId liked p hp n hn
    unfold updatePostLike at hp
    rcases List.mem_map.mp hp with ⟨q, hq, rfl⟩
    have hq0 := h q hq
    by_cases hid : q.id = postId
    · have h0 : (0 : Int) ≤ jsOr q.likes_count 0 := jsOr_nonneg hq0 le_rfl
      cases liked <;> simp [hid] at hn <;> omega
    · simp [hid] at hn
      exact hq0 n hn
  · intro postId currentlyLiked p hp n hn
    unfold optimisticLikeUpdate at hp
    rcases List.mem_map.mp hp with ⟨q, hq, rfl⟩
    have hq0 := h q hq
    by_cases hid : q.id = postId
    · have h0 : (0 : Int) ≤ jsOr q.likes_count 0 := jsOr_nonneg hq0 le_rfl
      have h1 : (1 : Int) ≤ jsOr q.likes_count 1 := jsOr_one_ge hq0
      cases currentlyLiked <;> simp [hid] at hn <;> omega
    · simp [hid] at hn
      exact hq0 n hn
  · intro postId currentlyLiked p hp n hn
    unfold revertLikeUpdate at hp
    rcases List.mem_map.mp hp with ⟨q, hq, rfl⟩
    have hq0 := h q hq
    by_cases hid : q.id = postId
    · have h0 : (0 : Int) ≤ jsOr q.likes_count 0 := jsOr_nonneg hq0 le_rfl
      have h1 : (1 : Int) ≤ jsOr q.likes_count 1 := jsOr_one_ge hq0
      cases currentlyLiked <;> simp [hid] at hn <;> omega
    · simp [hid] at hn
      exact hq0 n hn
  · intro currentUser payload p hp n hn
    unfold handleLikeChange at hp
    rcases List.mem_map.mp hp with ⟨q, hq, rfl⟩
    have hq0 := h q hq
    have h0 : (0 : Int) ≤ jsOr q.likes_count 0 := jsOr_nonneg hq0 le_rfl
    by_cases hmatch : (jsEqNat (some q.id) (payload.newRow.map LikeRow.post_id)
        || jsEqNat (some q.id) (payload.oldRow.map LikeRow.post_id)) = true
    · rw [if_pos hmatch] at hn
      by_cases hins : payload.eventType = "INSERT"
      · rw [if_pos hins] at hn
        simp at hn
        omega
      · rw [if_neg hins] at hn
        by_cases hdel : payload.eventType = "DELETE"
        · rw [if_pos hdel] at hn
          simp at hn
          omega
        · rw [if_neg hdel] at hn
          exact hq0 n hn
    · rw [if_neg hmatch] at hn
      exact hq0 n hn

/-- Witness for C10 at a concrete one-post feed. -/
theorem c10_likes_nonneg_witness :
    nonnegLikes [⟨1, 0, 5, "a", "x", some 0, false⟩] ∧
    nonnegLikes (updatePostLike 1 false [⟨1, 0, 5, "a", "x", some 0, false⟩]) ∧
    nonnegLikes (optimisticLikeUpdate 1 true [⟨1, 0, 5, "a", "x", some 0, false⟩]) := by
  have h0 : nonnegLikes [(⟨1, 0, 5, "a", "x", some 0, false⟩ : Post)] := by
    intro p hp n hn
    simp at hp
    subst hp
    simp at hn
    omega
  have hc := c10_likes_nonneg [⟨1, 0, 5, "a", "x", some 0, false⟩] h0
  exact ⟨h0, hc.1 1 false, hc.2.1 1 true⟩

/-- The JS default `x || 0` applied to a definitely-present value is the value
itself (0 falls back to the default 0). -/
theorem jsOr_some_zero (x : Int) : jsOr (some x) 0 = x := by
  simp only [jsOr]
  split <;> omega

/-- A concrete feed post with zero likes, currently liked by the viewer. -/
def c1Post : Post := ⟨1, 2, 100, "c", "u", some 0, true⟩

/-- Claim C1 is false as stated: for the post with likes_count 0 and a failing
unlike (currentlyLiked = true), the rollback leaves likes_count at 1, not at
its pre-call value 0 — the optimistic decrement clamps at 0 so the revert
increment overshoots. -/
theorem c1_counterexample :
    c1Post.likes_count = some 0 ∧
    (toggleLikeCtx (some 7) 1 true true [c1Post]).final.map Post.likes_count =
      [some 1] ∧
    (toggleLikeCtx (some 7) 1 true true [c1Post]).final ≠ [c1Post] := by
  decide

/-- The likes_count actually produced by the rollback of a failed toggleLike, as a
function of the pre-call value: the unlike direction rolls back to
`max 0 ((c || 1) - 1) + 1`, the like direction to `max 0 (c || 0)`. -/
def rollbackCount (currentlyLiked : Bool) (c : Option Int) : Int :=
  if currentlyLiked then max 0 (jsOr c 1 - 1) + 1 else max 0 (jsOr c 0)

/-- The per-post state left by a failed toggleLike after its rollback:
`user_has_liked` restored to `currentlyLiked` and `likes_count` to
`rollbackCount`; other posts unchanged. -/
def rollbackEntry (postId : Nat) (currentlyLiked : Bool) (p : Post) : Post :=
  if p.id = postId then
    { p with
      user_has_liked := currentlyLiked,
      likes_count := some (rollbackCount currentlyLiked p.likes_count) }
  else p

/-- Claim C1 as amended: the optimistic toggleLike mutates local state to the
toggled value immediately (before the remote call settles, and it stands when
the call succeeds); on failure the state is rolled back to `user_has_liked =
currentlyLiked` and to a likes_count that equals the pre-call value whenever
that value was an integer at least 1, but is 1 when the pre-call value was 0
or missing with currentlyLiked true, and 0 when it was 0 or missing with
currentlyLiked false. -/
theorem c1_amended_rollback (uid postId : Nat) (currentlyLiked : Bool)
    (posts : List Post) (n : Int) :
    (toggleLikeCtx (some uid) postId currentlyLiked true posts).optimistic =
      updatePostLike postId (!currentlyLiked) posts ∧
    (toggleLikeCtx (some uid) postId currentlyLiked false posts).final =
      updatePostLike postId (!currentlyLiked) posts ∧
    (toggleLikeCtx (some uid) postId currentlyLiked true posts).final =
      posts.map (rollbackEntry postId currentlyLiked) ∧
    (1 ≤ n → rollbackCount currentlyLiked (some n) = n) ∧
    rollbackCount true (some 0) = 1 ∧ rollbackCount true none = 1 ∧
    rollbackCount false none = 0 ∧ rollbackCount false (some 0) = 0 := by
  refine ⟨rfl, rfl, ?_, ?_, by decide, by decide, by decide, by decide⟩
  · show updatePostLike postId currentlyLiked
        (updatePostLike postId (!currentlyLiked) posts) = _
    unfold updatePostLike rollbackEntry rollbackCount
    rw [List.map_map]
    refine List.map_congr_left fun p _ => ?_
    obtain ⟨pid, puid, pca, pcap, purl, plc, puhl⟩ := p
    by_cases hid : pid = postId
    · cases currentlyLiked <;>
        cases plc with
      | none =>
        simp [Function.comp, hid, jsOr]
      | some m =>
        simp only [Function.comp, hid, Bool.not_true, Bool.not_false, reduceIte,
          jsOr, Post.mk.injEq, Option.some.injEq, and_true, true_and]
        split_ifs <;>
          first
            | omega
            | exact False.elim (by assumption)
    · simp [Function.comp, hid]
  · intro hn
    cases currentlyLiked <;> simp only [rollbackCount, jsOr, if_true,
      Bool.false_eq_true, if_false] <;> split <;> omega

/-- Witness for the amended C1 rollback at pre-call likes_count 3. -/
theorem c1_amended_rollback_witness :
    (1 : Int) ≤ 3 ∧ rollbackCount true (some 3) = 3 :=
  ⟨by decide, (c1_amended_rollback 7 1 true [c1Post] 3).2.2.2.1 (by decide)⟩

/-- Claim C5 is false as stated at a concrete input: the posts-row delete
issued by deletePost carries the additional filter user_id = current user id
(7), and no delete filtered by post id alone is issued. -/
theorem c5_counterexample :
    (deletePostRun (some 7) 1 none none none []).2.2 =
      [RemoteCall.likesDeleteByPost 1, RemoteCall.postsDelete 1 (some 7)] ∧
    RemoteCall.postsDelete 1 none ∉ (deletePostRun (some 7) 1 none none none []).2.2 := by
  decide

/-- Claim C5 as amended: the delete deletePost issues for the posts row is
filtered by the post id AND by user_id = the id of the current user — the one place
the client does enforce an ownership restriction — while the likes delete it
issues is generic by post id; no posts delete filtered by id alone is ever
issued. -/
theorem c5_owned_delete (uid postId : Nat) (imageUrl : Option String)
    (storageErr postsDelErr : Option String) (posts : List Post) :
    (deletePostRun (some uid) postId imageUrl storageErr postsDelErr posts).2.2 =
      deleteStorageTrace imageUrl ++
        [RemoteCall.likesDeleteByPost postId,
         RemoteCall.postsDelete postId (some uid)] ∧
    ∀ u : Option Nat,
      RemoteCall.postsDelete postId u ∈
        (deletePostRun (some uid) postId imageUrl storageErr postsDelErr posts).2.2 →
      u = some uid := by
  have htrace :
      (deletePostRun (some uid) postId imageUrl storageErr postsDelErr posts).2.2 =
        deleteStorageTrace imageUrl ++
          [RemoteCall.likesDeleteByPost postId,
           RemoteCall.postsDelete postId (some uid)] := by
    cases postsDelErr <;> rfl
  refine ⟨htrace, ?_⟩
  intro u hmem
  rw [htrace] at hmem
  rcases List.mem_append.mp hmem with h1 | h2
  · exfalso
    revert h1
    unfold deleteStorageTrace
    cases imageUrl with
    | none => simp
    | some url => split <;> simp
  · simpa using h2

/-- Witness for the amended C5 theorem at a concrete delete. -/
theorem c5_owned_delete_witness :
    RemoteCall.postsDelete 1 (some 7) ∈ (deletePostRun (some 7) 1 none none none []).2.2 ∧
    (RemoteCall.postsDelete 1 (some 7) ∈
        (deletePostRun (some 7) 1 none none none []).2.2 →
      (some 7 : Option Nat) = some 7) :=
  ⟨by decide, c5_owned_delete 7 1 none none none ([] : List Post) |>.2 (some 7)⟩

/-- Claim C7: uploadPost with a missing photo or a whitespace-only caption
alerts and issues no remote call; otherwise, with the remote calls succeeding,
it uploads the media to the `posts` storage bucket under the file name
`userId/now.jpg` derived from the id of the current user, obtains the
public URL, and inserts a posts row whose image_url is exactly that public URL
and whose caption is the entered caption. -/
theorem c7_upload_post :
    (∀ (caption : String) (user : Option Nat) (now : Nat)
       (uploadErr : Option String) (pubUrl : String → String)
       (insertErr : Option String),
       uploadPostRun none caption user now uploadErr pubUrl insertErr =
         (UploadResult.missingInput, [])) ∧
    (∀ (photo caption : String) (user : Option Nat) (now : Nat)
       (uploadErr : Option String) (pubUrl : String → String)
       (insertErr : Option String), jsTrim caption = "" →
       uploadPostRun (some photo) caption user now uploadErr pubUrl insertErr =
         (UploadResult.missingInput, [])) ∧
    (∀ (photo caption : String) (uid now : Nat) (pubUrl : String → String),
       jsTrim caption ≠ "" →
       uploadPostRun (some photo) caption (some uid) now none pubUrl none =
         (UploadResult.ok,
          [RemoteCall.authGetUser,
           RemoteCall.storageUpload "posts"
             (toString uid ++ "/" ++ toString now ++ ".jpg"),
           RemoteCall.getPublicUrl "posts"
             (toString uid ++ "/" ++ toString now ++ ".jpg"),
           RemoteCall.postsInsert uid
             (pubUrl (toString uid ++ "/" ++ toString now ++ ".jpg"))
             caption "photo"])) := by
  refine ⟨fun caption user now uploadErr pubUrl insertErr => rfl, ?_, ?_⟩
  · intro photo caption user now uploadErr pubUrl insertErr h
    unfold uploadPostRun
    simp [h]
  · intro photo caption uid now pubUrl h
    unfold uploadPostRun
    simp [h]

/-- Witness for C7 at a concrete caption and user. -/
theorem c7_upload_post_witness :
    (jsTrim "hi" = "" →
      uploadPostRun (some "p") "hi" (some 7) 5 none (fun s => "URL/" ++ s) none =
        (UploadResult.missingInput, [])) ∧
    (jsTrim "hi" ≠ "" ∧
      uploadPostRun (some "p") "hi" (some 7) 5 none (fun s => "URL/" ++ s) none =
        (UploadResult.ok,
         [RemoteCall.authGetUser,
          RemoteCall.storageUpload "posts" (toString 7 ++ "/" ++ toString 5 ++ ".jpg"),
          RemoteCall.getPublicUrl "posts" (toString 7 ++ "/" ++ toString 5 ++ ".jpg"),
          RemoteCall.postsInsert 7
            ((fun s => "URL/" ++ s) (toString 7 ++ "/" ++ toString 5 ++ ".jpg"))
            "hi" "photo"])) :=
  ⟨fun h => (c7_upload_post.2.1 "p" "hi" (some 7) 5 none (fun s => "URL/" ++ s)
      none h),
   ⟨by decide, c7_upload_post.2.2 "p" "hi" 7 5 (fun s => "URL/" ++ s) (by decide)⟩⟩

/-- Membership in the per-page likes trace: exactly the count query and the
user-like query of some post of the page. -/
theorem mem_likesTrace {userO : Option Nat} {page : List Post} {c : RemoteCall} :
    c ∈ likesTrace userO page ↔
      ∃ q ∈ page, c = RemoteCall.likesCount q.id ∨
        c = RemoteCall.likesUserLike q.id userO := by
  unfold likesTrace
  rw [List.mem_flatMap]
  constructor
  · rintro ⟨q, hq, hc⟩
    exact ⟨q, hq, by simpa using hc⟩
  · rintro ⟨q, hq, hc⟩
    exact ⟨q, hq, by simpa using hc⟩

/-- The per-page likes trace repeats no call when the post ids of the page are
pairwise distinct. -/
theorem likesTrace_nodup (userO : Option Nat) (page : List Post)
    (h : (page.map Post.id).Nodup) : (likesTrace userO page).Nodup := by
  induction page with
  | nil => simp [likesTrace]
  | cons p rest ih =>
    simp only [List.map_cons, List.nodup_cons] at h
    obtain ⟨hnotin, hrest⟩ := h
    rw [List.mem_map] at hnotin
    push_neg at hnotin
    have tailNodup := ih hrest
    show ((fun q => [RemoteCall.likesCount q.id, RemoteCall.likesUserLike q.id userO]) p
        ++ likesTrace userO rest).Nodup
    rw [List.nodup_append]
    refine ⟨by simp, tailNodup, ?_⟩
    intro a ha hb
    rcases mem_likesTrace.mp hb with ⟨q, hq, hcq⟩
    have ha2 : a = RemoteCall.likesCount p.id ∨
        a = RemoteCall.likesUserLike p.id userO := by simpa using ha
    rcases ha2 with rfl | rfl <;> rcases hcq with h1 | h1 <;>
      first
        | (injection h1 with h2
           exact hnotin q hq h2.symm)
        | exact RemoteCall.noConfusion h1

/-- The remote-call trace of any fetchPostsStep repeats no call when the
post ids of the remote table are pairwise distinct. -/
theorem fetchTrace_nodup (remote : List Post) (countO : Nat → Option Nat)
    (likeO : Nat → Bool) (userO : Option Nat) (err : Option String)
    (isInitial : Bool) (st : AppState) (hids : (remote.map Post.id).Nodup) :
    ((fetchPostsStep remote countO likeO userO err isInitial st).2).Nodup := by
  unfold fetchPostsStep
  by_cases g1 : (st.loading && !isInitial) = true
  · simp [g1]
  · by_cases g2 : (!isInitial && !st.hasMore) = true
    · simp [g1, g2]
    · cases err with
      | some e => simp [g1, g2]
      | none =>
        have hpage : ((((remote.drop (if isInitial then 0 else st.posts.length)).take
            PAGE_SIZE)).map Post.id).Nodup := by
          have hsub : ((remote.drop (if isInitial then 0 else st.posts.length)).take
              PAGE_SIZE).Sublist remote :=
            (List.take_sublist _ _).trans (List.drop_sublist _ _)
          exact hids.sublist (hsub.map _)
        have ht := likesTrace_nodup userO _ hpage
        simp only [g1, g2, Bool.false_eq_true, if_false, List.nodup_cons,
          List.mem_cons, mem_likesTrace]
        refine ⟨?_, ?_, ht⟩
        · rintro (h1 | ⟨q, _, h1 | h1⟩) <;> exact RemoteCall.noConfusion h1
        · rintro ⟨q, _, h1 | h1⟩ <;> exact RemoteCall.noConfusion h1

/-- Claim C4: in every remote operation of the client (toggleLike,
fetchPostWithLikes, deletePost, uploadPost, fetchPosts) an error returned by a
remote call is caught inside the operation and surfaced only as a local
result value (a failure object, null, a failure alert, or a logged error with
the loading flags reset and the posts unchanged); no error propagates to the
caller and no remote call is ever issued twice (every trace is duplicate-free,
for fetchPosts under pairwise-distinct remote post ids). -/
theorem c4_errors_local :
    (∀ (uid postId : Nat) (posts : List Post) (e : String),
       toggleLikeRun (some uid) postId true (some e) none posts =
         ({ success := false, error := some e, liked := none }, posts,
          [RemoteCall.likesDelete postId uid])) ∧
    (∀ (uid postId : Nat) (posts : List Post) (e : String),
       toggleLikeRun (some uid) postId false none (some e) posts =
         ({ success := false, error := some e, liked := none }, posts,
          [RemoteCall.likesInsert postId uid])) ∧
    (∀ (user : Option Nat) (postId : Nat) (currentlyLiked : Bool)
       (deleteErr insertErr : Option String) (posts : List Post),
       ((toggleLikeRun user postId currentlyLiked deleteErr insertErr posts).2.2).Nodup) ∧
    (∀ (uid postId : Nat) (e : String) (countO : Option Nat) (userLikeO : Bool),
       fetchPostWithLikesRun (some uid) postId (Except.error e) countO userLikeO =
         (none, [RemoteCall.postsSelectSingle postId])) ∧
    (∀ (user : Option Nat) (postId : Nat) (postRes : Except String (Option Post))
       (countO : Option Nat) (userLikeO : Bool),
       ((fetchPostWithLikesRun user postId postRes countO userLikeO).2).Nodup) ∧
    (∀ (uid postId : Nat) (imageUrl : Option String) (storageErr : Option String)
       (e : String) (posts : List Post),
       (deletePostRun (some uid) postId imageUrl storageErr (some e) posts).1 =
         { success := false, error := some e, liked := none } ∧
       (deletePostRun (some uid) postId imageUrl storageErr (some e) posts).2.1 =
         posts) ∧
    (∀ (user : Option Nat) (postId : Nat) (imageUrl : Option String)
       (storageErr postsDelErr : Option String) (posts : List Post),
       ((deletePostRun user postId imageUrl storageErr postsDelErr posts).2.2).Nodup) ∧
    (∀ (photo caption : String) (uid now : Nat) (e : String)
       (pubUrl : String → String) (insertErr : Option String),
       jsTrim caption ≠ "" →
       (uploadPostRun (some photo) caption (some uid) now (some e) pubUrl insertErr).1 =
         UploadResult.failed e) ∧
    (∀ (photo caption : String) (uid now : Nat) (pubUrl : String → String)
       (e : String), jsTrim caption ≠ "" →
       (uploadPostRun (some photo) caption (some uid) now none pubUrl (some e)).1 =
         UploadResult.failed e) ∧
    (∀ (photo : Option String) (caption : String) (user : Option Nat) (now : Nat)
       (uploadErr : Option String) (pubUrl : String → String)
       (insertErr : Option String),
       ((uploadPostRun photo caption user now uploadErr pubUrl insertErr).2).Nodup) ∧
    (∀ (remote : List Post) (countO : Nat → Option Nat) (likeO : Nat → Bool)
       (userO : Option Nat) (e : String) (isInitial : Bool) (st : AppState),
       ((fetchPostsStep remote countO likeO userO (some e) isInitial st).1).posts =
         st.posts ∧
       ((fetchPostsStep remote countO likeO userO (some e) isInitial st).1).hasMore =
         st.hasMore) ∧
    (∀ (remote : List Post) (countO : Nat → Option Nat) (likeO : Nat → Bool)
       (userO : Option Nat) (err : Option String) (isInitial : Bool) (st : AppState),
       (remote.map Post.id).Nodup →
       ((fetchPostsStep remote countO likeO userO err isInitial st).2).Nodup) := by
  refine ⟨fun uid postId posts e => rfl, fun uid postId posts e => rfl, ?_,
    fun uid postId e countO userLikeO => rfl, ?_, ?_, ?_, ?_, ?_, ?_, ?_,
    fun remote countO likeO userO err isInitial st hids =>
      fetchTrace_nodup remote countO likeO userO err isInitial st hids⟩
  · intro user postId currentlyLiked deleteErr insertErr posts
    unfold toggleLikeRun
    cases user <;> cases currentlyLiked <;> cases deleteErr <;>
      cases insertErr <;> simp
  · intro user postId postRes countO userLikeO
    unfold fetchPostWithLikesRun
    cases user with
    | none => simp
    | some uid =>
      rcases postRes with e | po
      · simp
      · cases po <;> simp
  · intro uid postId imageUrl storageErr e posts
    exact ⟨rfl, rfl⟩
  · intro user postId imageUrl storageErr postsDelErr posts
    unfold deletePostRun deleteStorageTrace
    cases user with
    | none => simp
    | some uid =>
      cases postsDelErr <;> cases imageUrl <;> simp <;> (try (split <;> simp))
  · intro photo caption uid now e pubUrl insertErr h
    unfold uploadPostRun
    simp [h]
  · intro photo caption uid now pubUrl e h
    unfold uploadPostRun
    simp [h]
  · intro photo caption user now uploadErr pubUrl insertErr
    unfold uploadPostRun
    by_cases hg : (photo.isNone || decide (jsTrim caption = "")) = true
    · simp [hg]
    · cases user with
      | none => simp [hg]
      | some uid =>
        cases uploadErr <;> cases insertErr <;> simp [hg]
  · intro remote countO likeO userO e isInitial st
    unfold fetchPostsStep
    by_cases g1 : (st.loading && !isInitial) = true
    · simp [g1]
    · by_cases g2 : (!isInitial && !st.hasMore) = true
      · simp [g1, g2]
      · simp [g1, g2]

/-- Witness for C4: error locality at a concrete failing unlike and a concrete
fetch over a duplicate-free remote table. -/
theorem c4_errors_local_witness :
    toggleLikeRun (some 7) 1 true (some "boom") none [] =
      ({ success := false, error := some "boom", liked := none }, [],
       [RemoteCall.likesDelete 1 7]) ∧
    jsTrim "hi" ≠ "" ∧
    (uploadPostRun (some "p") "hi" (some 7) 5 (some "boom")
        (fun s => "URL/" ++ s) none).1 = UploadResult.failed "boom" ∧
    (([⟨1, 0, 5, "a", "x", none, false⟩] : List Post).map Post.id).Nodup ∧
    ((fetchPostsStep [⟨1, 0, 5, "a", "x", none, false⟩] (fun _ => none)
        (fun _ => false) none none true initialAppState).2).Nodup := by
  refine ⟨c4_errors_local.1 7 1 [] "boom", by decide, ?_, by decide, ?_⟩
  · exact c4_errors_local.2.2.2.2.2.2.2.1 "p" "hi" 7 5 "boom"
      (fun s => "URL/" ++ s) none (by decide)
  · exact c4_errors_local.2.2.2.2.2.2.2.2.2.2.2
      [⟨1, 0, 5, "a", "x", none, false⟩] (fun _ => none) (fun _ => false)
      none none true initialAppState (by decide)

/-- The identity of a feed entry for pagination purposes: its id and
creation time, both preserved by the likes enrichment. -/
def postKey (p : Post) : Nat × Int := (p.id, p.created_at)

/-- Equal key projections give equal id projections. -/
theorem map_id_of_map_key {l1 l2 : List Post}
    (h : l1.map postKey = l2.map postKey) : l1.map Post.id = l2.map Post.id := by
  have h2 := congrArg (List.map Prod.fst) h
  simpa [List.map_map, Function.comp, postKey] using h2

/-- One successful fetch step preserves the invariant that the feed is, up to
likes enrichment, the length-long prefix of the remote table. -/
theorem fetchStepPrefixInv (remote : List Post) (countO : Nat → Option Nat)
    (likeO : Nat → Bool) (userO : Option Nat) (b : Bool) (st : AppState)
    (hids : (remote.map Post.id).Nodup)
    (h : st.posts.map postKey = (remote.take st.posts.length).map postKey) :
    ((fetchPostsStep remote countO likeO userO none b st).1).posts.map postKey =
      (remote.take
        ((fetchPostsStep remote countO likeO userO none b st).1).posts.length).map
        postKey := by
  unfold fetchPostsStep
  by_cases g1 : (st.loading && !b) = true
  · simpa [g1] using h
  · by_cases g2 : (!b && !st.hasMore) = true
    · simpa [g1, g2] using h
    · simp only [g1, g2, Bool.false_eq_true, if_false]
      cases b with
      | true =>
        simp only [if_true, List.drop_zero]
        rw [List.map_map]
        have hkey : (remote.take PAGE_SIZE).map (postKey ∘ enrichPost countO likeO) =
            (remote.take PAGE_SIZE).map postKey :=
          List.map_congr_left fun p _ => rfl
        rw [hkey, List.length_map, List.length_take]
        have : remote.take (min PAGE_SIZE remote.length) = remote.take PAGE_SIZE := by
          rw [List.take_eq_take]
          omega
        rw [this]
      | false =>
        simp only [Bool.false_eq_true, if_false]
        have hm : st.posts.length ≤ remote.length := by
          have hlen := congrArg List.length h
          simp only [List.length_map, List.length_take] at hlen
          omega
        have hkeep : (((remote.drop st.posts.length).take PAGE_SIZE).map
            (enrichPost countO likeO)).filter
            (fun newPost => !(st.posts.any fun ep => ep.id == newPost.id)) =
            ((remote.drop st.posts.length).take PAGE_SIZE).map
              (enrichPost countO likeO) := by
          rw [List.filter_eq_self]
          intro x hx
          rcases List.mem_map.mp hx with ⟨q, hq, rfl⟩
          have hqid : q.id ∈ (remote.drop st.posts.length).map Post.id :=
            List.mem_map.mpr ⟨q, (List.take_sublist _ _).mem hq, rfl⟩
          have hsplit : remote.map Post.id =
              (remote.take st.posts.length).map Post.id ++
                (remote.drop st.posts.length).map Post.id := by
            rw [← List.map_append, List.take_append_drop]
          have hdisj := (List.nodup_append.mp (hsplit ▸ hids)).2.2
          have hnot : q.id ∉ (remote.take st.posts.length).map Post.id :=
            fun hmem => hdisj hmem hqid
          have hsame : st.posts.map Post.id =
              (remote.take st.posts.length).map Post.id :=
            map_id_of_map_key h
          have hany : (st.posts.any fun ep =>
              ep.id == (enrichPost countO likeO q).id) = false := by
            rw [List.any_eq_false]
            intro ep hep
            simp only [enrichPost, beq_eq_false_iff_ne, ne_eq]
            intro heq
            have heq2 : ep.id = q.id := by simpa using heq
            exact hnot (hsame ▸ List.mem_map.mpr ⟨ep, hep, heq2⟩)
          simp [hany]
        unfold addPostsAction
        rw [hkeep]
        rw [List.map_append, h, List.map_map]
        have hcomp : ((remote.drop st.posts.length).take PAGE_SIZE).map
            (postKey ∘ enrichPost countO likeO) =
            ((remote.drop st.posts.length).take PAGE_SIZE).map postKey :=
          List.map_congr_left fun p _ => rfl
        rw [hcomp]
        have hlen2 : (st.posts ++ ((remote.drop st.posts.length).take
            PAGE_SIZE).map (enrichPost countO likeO)).length =
            st.posts.length +
              ((remote.drop st.posts.length).take PAGE_SIZE).length := by
          simp
        rw [hlen2]
        have htake2 : remote.take (st.posts.length +
            ((remote.drop st.posts.length).take PAGE_SIZE).length) =
            remote.take st.posts.length ++
              (remote.drop st.posts.length).take PAGE_SIZE := by
          rw [List.take_add]
          congr 1
          rw [List.take_eq_take]
          simp only [List.length_take, List.length_drop]
          omega
        rw [htake2, List.map_append]

/-- The prefix invariant holds after any sequence of successful fetches from
the initial (empty) state. -/
theorem fetchSeqPrefixInv (remote : List Post) (countO : Nat → Option Nat)
    (likeO : Nat → Bool) (userO : Option Nat) (flags : List Bool)
    (hids : (remote.map Post.id).Nodup) :
    (fetchSeq remote countO likeO userO flags initialAppState).posts.map postKey =
      (remote.take
        (fetchSeq remote countO likeO userO flags initialAppState).posts.length).map
        postKey := by
  suffices hstep : ∀ st : AppState,
      st.posts.map postKey = (remote.take st.posts.length).map postKey →
      (fetchSeq remote countO likeO userO flags st).posts.map postKey =
        (remote.take
          (fetchSeq remote countO likeO userO flags st).posts.length).map postKey by
    exact hstep initialAppState (by simp [initialAppState])
  induction flags with
  | nil => exact fun st hst => hst
  | cons b bs ih =>
    intro st hst
    exact ih _ (fetchStepPrefixInv remote countO likeO userO b st hids hst)

/-- A feed that is keywise a prefix of a reverse-chronologically sorted remote
table is itself reverse-chronologically sorted. -/
theorem prefix_sorted (remote : List Post) (l : List Post) (n : Nat)
    (hsorted : remote.Pairwise (fun a b => b.created_at ≤ a.created_at))
    (hkey : l.map postKey = (remote.take n).map postKey) :
    l.Pairwise (fun a b => b.created_at ≤ a.created_at) := by
  have h1 : (remote.take n).Pairwise (fun a b => b.created_at ≤ a.created_at) :=
    hsorted.sublist (List.take_sublist _ _)
  have h2 : ((remote.take n).map postKey).Pairwise
      (fun x y : Nat × Int => y.2 ≤ x.2) :=
    List.pairwise_map.mpr (h1.imp fun hab => hab)
  rw [← hkey] at h2
  have h3 := List.pairwise_map.mp h2
  exact h3.imp fun hab => hab

/-- Claim C3: fetchPosts requests pages ordered by created_at descending over
the index range from .. from+9 with from = 0 initially and the feed length
otherwise; consequently, after every sequence of successful fetches from the
initial state over a duplicate-free reverse-chronological remote table, the
feed is (up to likes enrichment) a prefix of that table — hence itself
reverse-chronological — and every fetch appends at most PAGE_SIZE (10) posts. -/
theorem c3_feed_pagination (remote : List Post) (countO : Nat → Option Nat)
    (likeO : Nat → Bool) (userO : Option Nat) (flags : List Bool)
    (hids : (remote.map Post.id).Nodup)
    (hsorted : remote.Pairwise (fun a b => b.created_at ≤ a.created_at)) :
    (fetchSeq remote countO likeO userO flags initialAppState).posts.map postKey =
      (remote.take
        (fetchSeq remote countO likeO userO flags initialAppState).posts.length).map
        postKey ∧
    (fetchSeq remote countO likeO userO flags initialAppState).posts.Pairwise
      (fun a b => b.created_at ≤ a.created_at) ∧
    (∀ (b : Bool) (st : AppState),
       ((fetchPostsStep remote countO likeO userO none b st).1).posts.length ≤
         if b then PAGE_SIZE else st.posts.length + PAGE_SIZE) ∧
    (∀ (b : Bool) (st : AppState), st.loading = false → st.hasMore = true →
       (fetchPostsStep remote countO likeO userO none b st).2 =
         RemoteCall.authGetUser ::
           RemoteCall.postsRange "created_at" true
             (if b then 0 else st.posts.length)
             ((if b then 0 else st.posts.length) + PAGE_SIZE - 1) ::
           likesTrace userO
             ((remote.drop (if b then 0 else st.posts.length)).take PAGE_SIZE)) := by
  have hpre := fetchSeqPrefixInv remote countO likeO userO flags hids
  refine ⟨hpre, prefix_sorted remote _ _ hsorted hpre, ?_, ?_⟩
  · intro b st
    unfold fetchPostsStep
    by_cases g1 : (st.loading && !b) = true
    · cases b <;> simp_all
    · by_cases g2 : (!b && !st.hasMore) = true
      · cases b <;> simp_all
      · cases b with
        | true =>
          simp only [g1, g2, Bool.false_eq_true, if_false, if_true]
          simp [List.length_take]
        | false =>
          simp only [g1, g2, Bool.false_eq_true, if_false]
          unfold addPostsAction
          have hfil := List.length_filter_le
            (fun newPost => !(st.posts.any fun ep => ep.id == newPost.id))
            (((remote.drop st.posts.length).take PAGE_SIZE).map
              (enrichPost countO likeO))
          simp only [List.length_append]
          have : (((remote.drop st.posts.length).take PAGE_SIZE).map
              (enrichPost countO likeO)).length ≤ PAGE_SIZE := by
            simp [List.length_take]
          omega
  · intro b st hl hm
    unfold fetchPostsStep
    simp [hl, hm]

/-- Witness for C3 at a concrete three-row table and two fetches. -/
theorem c3_feed_pagination_witness :
    (([⟨3, 0, 30, "a", "x", none, false⟩, ⟨2, 0, 20, "b", "y", none, false⟩,
        ⟨1, 0, 10, "c", "z", none, false⟩] : List Post).map Post.id).Nodup ∧
    ([⟨3, 0, 30, "a", "x", none, false⟩, ⟨2, 0, 20, "b", "y", none, false⟩,
        ⟨1, 0, 10, "c", "z", none, false⟩] : List Post).Pairwise
      (fun a b => b.created_at ≤ a.created_at) ∧
    (fetchSeq [⟨3, 0, 30, "a", "x", none, false⟩, ⟨2, 0, 20, "b", "y", none, false⟩,
        ⟨1, 0, 10, "c", "z", none, false⟩] (fun _ => none) (fun _ => false) none
        [true, false] initialAppState).posts.Pairwise
      (fun a b => b.created_at ≤ a.created_at) := by
  refine ⟨by decide, by decide, ?_⟩
  exact (c3_feed_pagination
    [⟨3, 0, 30, "a", "x", none, false⟩, ⟨2, 0, 20, "b", "y", none, false⟩,
     ⟨1, 0, 10, "c", "z", none, false⟩] (fun _ => none) (fun _ => false) none
    [true, false] (by decide) (by decide)).2.1

end MadCap
